import Mathlib

/-!
Shallow embedding of the trade-store ingestion pipeline
(`app/validators`, `app/repositories`, `app/services/trade_service.py`,
`app/kafka/consumer.py`).

Calendar dates are embedded as `Nat` (a day count); only their order and
equality are ever used by the code.  The relational record store is a
`List Trade` and the DynamoDB lifecycle store is a `List RequestRecord`;
server-assigned timestamps (`created_at`/`updated_at`, DynamoDB `ttl`) are
not modelled — no claim is about them.
-/

/-- A calendar date, embedded as a day count. -/
abbrev Date := Nat

/-- Embeds `app/schemas/trade.py`, `TradeCreate`: the validated submission payload. -/
structure TradeCreate where
  trade_id : String
  version : Nat
  counterparty_id : String
  book_id : String
  maturity_date : Date
  created_date : Date
deriving DecidableEq, Repr

/-- Embeds `app/models/trade.py`, `Trade`: a persisted trade row, keyed by
(trade_id, version).  Server timestamps are untracked. -/
structure Trade where
  trade_id : String
  version : Nat
  counterparty_id : String
  book_id : String
  maturity_date : Date
  created_date : Date
deriving DecidableEq, Repr

/-- Embeds `app/validators/version_validator.py`, `TradeAction`. -/
inductive TradeAction where
  | INSERT
  | UPSERT
deriving DecidableEq, Repr

/-- Embeds `app/exceptions/trade_exceptions.py`: the two business rejections,
each carrying its human-readable message. -/
inductive TradeValidationError where
  | MaturityDateExpiredError (message : String)
  | LowerVersionError (message : String)
deriving DecidableEq, Repr

/-- The `message` attribute set by `TradeValidationError.__init__`. -/
def TradeValidationError.message : TradeValidationError → String
  | .MaturityDateExpiredError m => m
  | .LowerVersionError m => m

/-- The f-string built by `MaturityDateValidator.validate` before raising. -/
def maturityExpiredMessage (today : Date) (trade : TradeCreate) : String :=
  "Trade " ++ trade.trade_id ++ " rejected: maturity date " ++
    toString trade.maturity_date ++ " is earlier than today (" ++
    toString today ++ ")."

/-- Embeds `app/validators/maturity_date_validator.py`, `MaturityDateValidator.validate`:
raises `MaturityDateExpiredError` when `trade.maturity_date < date.today()`.
`today` is the processing date (the embedding of `date.today()`). -/
def MaturityDateValidator.validate (today : Date) (trade : TradeCreate) :
    Except TradeValidationError Unit :=
  if trade.maturity_date < today then
    .error (.MaturityDateExpiredError (maturityExpiredMessage today trade))
  else
    .ok ()

/-- The f-string built by `VersionValidator.validate` before raising. -/
def lowerVersionMessage (current_max_version : Nat) (trade : TradeCreate) : String :=
  "Trade " ++ trade.trade_id ++ " rejected: incoming version " ++
    toString trade.version ++ " is lower than stored version " ++
    toString current_max_version ++ "."

/-- Embeds `app/validators/version_validator.py`, `VersionValidator.validate`. -/
def VersionValidator.validate (current_max_version : Option Nat)
    (trade : TradeCreate) : Except TradeValidationError TradeAction :=
  match current_max_version with
  | none => .ok .INSERT
  | some m =>
    if trade.version < m then
      .error (.LowerVersionError (lowerVersionMessage m trade))
    else if trade.version = m then
      .ok .UPSERT
    else
      .ok .INSERT

/-- Key match used by `TradeRepository`: `trade_id == .. and version == ..`. -/
def tradeKeyMatch (trade_id : String) (version : Nat) (r : Trade) : Bool :=
  r.trade_id == trade_id && r.version == version

/-- Embeds `TradeRepository.get_by_id_and_version`: the row with the given
(trade_id, version), when present (the primary key makes it unique). -/
def TradeRepository.get_by_id_and_version (store : List Trade)
    (trade_id : String) (version : Nat) : Option Trade :=
  store.find? (tradeKeyMatch trade_id version)

/-- The field assignments done on `existing` inside `TradeRepository.upsert`:
counterparty_id, book_id, maturity_date, created_date are overwritten,
the key fields are untouched. -/
def overwriteFields (existing trade : Trade) : Trade :=
  { existing with
      counterparty_id := trade.counterparty_id
      book_id := trade.book_id
      maturity_date := trade.maturity_date
      created_date := trade.created_date }

/-- Mutating the (unique) matching row in place: the first row matching the
key is overwritten, all other rows are untouched. -/
def replaceFirst (store : List Trade) (trade : Trade) : List Trade :=
  match store with
  | [] => []
  | r :: rs =>
    if tradeKeyMatch trade.trade_id trade.version r then
      overwriteFields r trade :: rs
    else
      r :: replaceFirst rs trade

/-- Embeds `app/repositories/trade_repository.py`, `TradeRepository.upsert`:
look the key up; if a row exists overwrite its non-key fields in place,
else add the new row. -/
def TradeRepository.upsert (store : List Trade) (trade : Trade) : List Trade :=
  match TradeRepository.get_by_id_and_version store trade.trade_id trade.version with
  | some _ => replaceFirst store trade
  | none => store ++ [trade]

/-- Embeds `TradeRepository.get_max_version`: `SELECT max(version) WHERE trade_id = ..`,
`NULL` (none) when the trade has no rows. -/
def TradeRepository.get_max_version (store : List Trade) (trade_id : String) :
    Option Nat :=
  ((store.filter (fun r => r.trade_id == trade_id)).map (fun r => r.version)).max?

/-- Embeds `app/repositories/request_repository.py`: one lifecycle record in the
DynamoDB table, keyed by request_id.  `status` is stored as a raw string
("PENDING" / "SUCCESS" / "FAILED"), as in the code. -/
structure RequestRecord where
  request_id : String
  status : String
  trade_id : String
  version : Nat
  counterparty_id : String
  book_id : String
  maturity_date : Date
  created_date : Date
  failure_reason : Option String
deriving DecidableEq, Repr

/-- DynamoDB `put_item`: overwrite the item with the same key, or add it. -/
def putRecord (store : List RequestRecord) (rec : RequestRecord) :
    List RequestRecord :=
  match store with
  | [] => [rec]
  | r :: rs =>
    if r.request_id == rec.request_id then
      rec :: rs
    else
      r :: putRecord rs rec

/-- Embeds `RequestRepository.create_pending`: write a new PENDING record holding a
snapshot of the submitted trade fields. -/
def RequestRepository.create_pending (store : List RequestRecord)
    (request_id : String) (trade : TradeCreate) : List RequestRecord :=
  putRecord store
    { request_id := request_id
      status := "PENDING"
      trade_id := trade.trade_id
      version := trade.version
      counterparty_id := trade.counterparty_id
      book_id := trade.book_id
      maturity_date := trade.maturity_date
      created_date := trade.created_date
      failure_reason := none }

/-- Embeds `RequestRepository.update_status`: `update_item` SETs `status` (and
`failure_reason` only when one is given — with no reason the stored
failure_reason is left as it was).  Modelled on the records already in the
table; the pipeline only ever updates records it created at admission. -/
def RequestRepository.update_status (store : List RequestRecord)
    (request_id : String) (status : String) (failure_reason : Option String) :
    List RequestRecord :=
  store.map (fun r =>
    if r.request_id == request_id then
      { r with
          status := status
          failure_reason :=
            match failure_reason with
            | some reason => some reason
            | none => r.failure_reason }
    else r)

/-- Embeds `RequestRepository.get_by_request_id` restricted to the status field. -/
def getStatus (store : List RequestRecord) (request_id : String) :
    Option String :=
  (store.find? (fun r => r.request_id == request_id)).map (fun r => r.status)

/-- The submission envelope consumed from the ordered channel
(`message_value` in `app/kafka/consumer.py`): `request_id` is read with
`.get` (optional), `action` is carried but never read by the consumer. -/
structure MessageValue where
  request_id : Option String
  trade_id : String
  version : Nat
  counterparty_id : String
  book_id : String
  maturity_date : Date
  created_date : Date
  action : String
deriving DecidableEq, Repr

/-- The `TradeCreate` built from `message_value` in `handle_message`. -/
def tradeCreateOfMessage (m : MessageValue) : TradeCreate :=
  { trade_id := m.trade_id
    version := m.version
    counterparty_id := m.counterparty_id
    book_id := m.book_id
    maturity_date := m.maturity_date
    created_date := m.created_date }

/-- The `Trade` row built in `handle_message` before `repo.upsert`. -/
def tradeOfCreate (t : TradeCreate) : Trade :=
  { trade_id := t.trade_id
    version := t.version
    counterparty_id := t.counterparty_id
    book_id := t.book_id
    maturity_date := t.maturity_date
    created_date := t.created_date }

/-- The validation chain as run by `handle_message`: maturity check first,
then the max-version lookup feeding the version check; the first raised
`TradeValidationError` short-circuits. -/
def runValidation (today : Date) (trades : List Trade) (t : TradeCreate) :
    Except TradeValidationError TradeAction :=
  match MaturityDateValidator.validate today t with
  | .error e => .error e
  | .ok _ =>
    VersionValidator.validate (TradeRepository.get_max_version trades t.trade_id) t

/-- The two stores visible to the consumer. -/
structure ConsumerState where
  trades : List Trade
  requests : List RequestRecord
deriving DecidableEq, Repr

/-- Embeds `app/kafka/consumer.py`, `handle_message`.  `today` embeds
`date.today()` at processing time; `hasDynamoClient` is whether a
`dynamodb_client` was passed (without one, `request_repo` is `None` and no
lifecycle write happens).  On a validation error the record store is left
untouched and — when both a client and a request_id are present — the
lifecycle record is set FAILED with the exception's message; on acceptance
the trade is upserted and the lifecycle record is set SUCCESS. -/
def handle_message (today : Date) (hasDynamoClient : Bool) (m : MessageValue)
    (st : ConsumerState) : ConsumerState :=
  let trade_create := tradeCreateOfMessage m
  match runValidation today st.trades trade_create with
  | .error exc =>
    if hasDynamoClient then
      match m.request_id with
      | some rid =>
        { st with requests :=
            RequestRepository.update_status st.requests rid "FAILED" (some exc.message) }
      | none => st
    else st
  | .ok _action =>
    let trade := tradeOfCreate trade_create
    { trades := TradeRepository.upsert st.trades trade
      requests :=
        if hasDynamoClient then
          match m.request_id with
          | some rid => RequestRepository.update_status st.requests rid "SUCCESS" none
          | none => st.requests
        else st.requests }

/-- Embeds `app/schemas/trade.py`: the two possible results of `ingest_trade`. -/
inductive IngestResult where
  | TradeAccepted (request_id : String) (trade_id : String) (version : Nat)
  | TradeTemporaryFailure (message : String) (retry_after_seconds : Nat)
deriving DecidableEq, Repr

/-- The payload dict built by `TradeService.ingest_trade` and published to
the channel; `action` is hard-coded to "insert". -/
structure KafkaPayload where
  request_id : String
  trade_id : String
  version : Nat
  counterparty_id : String
  book_id : String
  maturity_date : Date
  created_date : Date
  action : String
deriving DecidableEq, Repr

/-- The payload literal from `TradeService.ingest_trade`. -/
def tradePayload (request_id : String) (trade : TradeCreate) : KafkaPayload :=
  { request_id := request_id
    trade_id := trade.trade_id
    version := trade.version
    counterparty_id := trade.counterparty_id
    book_id := trade.book_id
    maturity_date := trade.maturity_date
    created_date := trade.created_date
    action := "insert" }

/-- State visible to the admission gateway: the lifecycle store and the
sequence of messages published to the ordered channel. -/
structure GatewayState where
  requests : List RequestRecord
  published : List KafkaPayload
deriving DecidableEq, Repr

/-- Embeds `app/services/trade_service.py`, `TradeService.ingest_trade`.
`request_id` is the fresh uuid4; `createPendingOk` / `publishOk` embed
whether the lifecycle-store write and the channel publish raise.  A failed
pending write aborts before any publish; a failed publish returns the same
temporary failure and leaves the already-written PENDING record in place. -/
def TradeService.ingest_trade (request_id : String)
    (createPendingOk publishOk : Bool) (trade : TradeCreate)
    (st : GatewayState) : IngestResult × GatewayState :=
  let payload := tradePayload request_id trade
  if createPendingOk then
    let st1 : GatewayState :=
      { st with requests := RequestRepository.create_pending st.requests request_id trade }
    if publishOk then
      (.TradeAccepted request_id trade.trade_id trade.version,
        { st1 with published := st1.published ++ [payload] })
    else
      (.TradeTemporaryFailure "Service temporarily unavailable. Please retry later." 60,
        st1)
  else
    (.TradeTemporaryFailure "Service temporarily unavailable. Please retry later." 60,
      st)

/-! ## Claim theorems -/

/-- The version validator never produces a maturity rejection: its only
error constructor is `LowerVersionError`. -/
theorem versionValidate_ne_maturity (M : Option Nat) (t : TradeCreate)
    (msg : String) :
    VersionValidator.validate M t ≠ .error (.MaturityDateExpiredError msg) := by
  cases M with
  | none => simp [VersionValidator.validate]
  | some m =>
    simp only [VersionValidator.validate]
    split_ifs <;> simp

/-- C1: for every submission and optional current max persisted version M,
`VersionValidator.validate` returns INSERT when M is absent, rejects with
LowerVersion when the version is strictly below M, returns UPSERT at
equality, and INSERT when strictly above M. -/
theorem c1_version_validator_cases (t : TradeCreate) (m : Nat) :
    VersionValidator.validate none t = .ok .INSERT ∧
    (t.version < m →
      VersionValidator.validate (some m) t =
        .error (.LowerVersionError (lowerVersionMessage m t))) ∧
    (t.version = m → VersionValidator.validate (some m) t = .ok .UPSERT) ∧
    (m < t.version → VersionValidator.validate (some m) t = .ok .INSERT) := by
  refine ⟨rfl, ?_, ?_, ?_⟩ <;> intro h
  · simp [VersionValidator.validate, h]
  · have h1 : ¬ t.version < m := by omega
    simp [VersionValidator.validate, h1, h]
  · have h1 : ¬ t.version < m := by omega
    have h2 : t.version ≠ m := by omega
    simp [VersionValidator.validate, h1, h2]

/-- Witness for C1 at version 1, 2 and 3 against stored max 2, and with no
stored version. -/
theorem c1_version_validator_cases_witness :
    VersionValidator.validate (some 2)
        { trade_id := "T1", version := 1, counterparty_id := "CP", book_id := "B",
          maturity_date := 10, created_date := 0 } =
      .error (.LowerVersionError (lowerVersionMessage 2
        { trade_id := "T1", version := 1, counterparty_id := "CP", book_id := "B",
          maturity_date := 10, created_date := 0 })) ∧
    VersionValidator.validate (some 2)
        { trade_id := "T1", version := 2, counterparty_id := "CP", book_id := "B",
          maturity_date := 10, created_date := 0 } = .ok .UPSERT ∧
    VersionValidator.validate (some 2)
        { trade_id := "T1", version := 3, counterparty_id := "CP", book_id := "B",
          maturity_date := 10, created_date := 0 } = .ok .INSERT ∧
    VersionValidator.validate none
        { trade_id := "T1", version := 1, counterparty_id := "CP", book_id := "B",
          maturity_date := 10, created_date := 0 } = .ok .INSERT :=
  ⟨(c1_version_validator_cases _ 2).2.1 (by decide),
   (c1_version_validator_cases _ 2).2.2.1 (by decide),
   (c1_version_validator_cases _ 2).2.2.2 (by decide),
   (c1_version_validator_cases _ 2).1⟩

/-- C2: the validation chain run by the consumer rejects with
MaturityExpired iff the submission's maturity date is strictly before the
processing date — for every record-store content and hence every version,
because the expiry check runs before the version check; equality with the
processing date is accepted by the expiry check. -/
theorem c2_maturity_rejection_iff (today : Date) (trades : List Trade)
    (t : TradeCreate) :
    (∃ msg, runValidation today trades t = .error (.MaturityDateExpiredError msg)) ↔
      t.maturity_date < today := by
  constructor
  · rintro ⟨msg, hmsg⟩
    by_contra h
    rw [runValidation] at hmsg
    rw [MaturityDateValidator.validate, if_neg h] at hmsg
    exact versionValidate_ne_maturity _ t msg hmsg
  · intro h
    refine ⟨maturityExpiredMessage today t, ?_⟩
    rw [runValidation, MaturityDateValidator.validate, if_pos h]

/-- Witness for C2: maturity 4 is rejected on processing date 5, maturity 5
(equal to the processing date) is not maturity-rejected. -/
theorem c2_maturity_rejection_iff_witness :
    (∃ msg, runValidation 5 []
        { trade_id := "T1", version := 1, counterparty_id := "CP", book_id := "B",
          maturity_date := 4, created_date := 0 } =
        .error (.MaturityDateExpiredError msg)) ∧
    ¬ (∃ msg, runValidation 5 []
        { trade_id := "T1", version := 1, counterparty_id := "CP", book_id := "B",
          maturity_date := 5, created_date := 0 } =
        .error (.MaturityDateExpiredError msg)) :=
  ⟨(c2_maturity_rejection_iff 5 [] _).mpr (by decide),
   fun h => absurd ((c2_maturity_rejection_iff 5 [] _).mp h) (by decide)⟩

/-- C5: when the PENDING lifecycle-record write fails at admission,
`ingest_trade` returns a temporary failure with a 60-second retry-after
hint, publishes nothing to the channel, and leaves the whole gateway state
untouched. -/
theorem c5_pending_write_failure (request_id : String) (publishOk : Bool)
    (trade : TradeCreate) (st : GatewayState) :
    (TradeService.ingest_trade request_id false publishOk trade st).1 =
      .TradeTemporaryFailure
        "Service temporarily unavailable. Please retry later." 60 ∧
    (TradeService.ingest_trade request_id false publishOk trade st).2.published =
      st.published ∧
    (TradeService.ingest_trade request_id false publishOk trade st).2 = st :=
  ⟨rfl, rfl, rfl⟩

/-- A `put_item` leaves the written key readable with the written status. -/
theorem getStatus_putRecord (store : List RequestRecord) (rec : RequestRecord) :
    getStatus (putRecord store rec) rec.request_id = some rec.status := by
  induction store with
  | nil => simp [putRecord, getStatus, List.find?_cons]
  | cons r rs ih =>
    rw [putRecord]
    by_cases h : r.request_id == rec.request_id
    · simp [h, getStatus, List.find?_cons]
    · rw [if_neg h]
      simp only [Bool.not_eq_true] at h
      simp only [getStatus, List.find?_cons, h]
      simpa [getStatus] using ih

/-- C6: when the PENDING write succeeds but the channel publish fails,
`ingest_trade` returns the temporary failure, nothing is published, and
the lifecycle record written at admission is not rolled back: it is still
readable with status PENDING. -/
theorem c6_publish_failure_keeps_pending (request_id : String)
    (trade : TradeCreate) (st : GatewayState) :
    (TradeService.ingest_trade request_id true false trade st).1 =
      .TradeTemporaryFailure
        "Service temporarily unavailable. Please retry later." 60 ∧
    (TradeService.ingest_trade request_id true false trade st).2.requests =
      RequestRepository.create_pending st.requests request_id trade ∧
    (TradeService.ingest_trade request_id true false trade st).2.published =
      st.published ∧
    getStatus (TradeService.ingest_trade request_id true false trade st).2.requests
      request_id = some "PENDING" :=
  ⟨rfl, rfl, rfl, getStatus_putRecord st.requests _⟩

/-- C9: the consumer's behaviour is invariant under the envelope's `action`
field — two messages identical up to `action` produce identical final
states — and the admission gateway always publishes `action = "insert"`. -/
theorem c9_action_field_irrelevant (today : Date) (client : Bool)
    (m : MessageValue) (a : String) (st : ConsumerState) :
    handle_message today client { m with action := a } st =
      handle_message today client m st ∧
    (∀ rid t, (tradePayload rid t).action = "insert") := by
  refine ⟨?_, fun _ _ => rfl⟩
  cases m
  rfl

/-- Splitting `replaceFirst` over rows that do not match the key. -/
theorem replaceFirst_append_no_match (t : Trade) (l1 l2 : List Trade)
    (h1 : ∀ a ∈ l1, tradeKeyMatch t.trade_id t.version a = false) :
    replaceFirst (l1 ++ l2) t = l1 ++ replaceFirst l2 t := by
  induction l1 with
  | nil => rfl
  | cons a l ih =>
    have ha := h1 a (by simp)
    rw [List.cons_append, replaceFirst, ha]
    simp only [Bool.false_eq_true, if_false, List.cons_append, List.cons.injEq,
      true_and]
    exact ih (fun x hx => h1 x (by simp [hx]))

/-- C7: `upsert` with an existing (trade_id, version) row overwrites exactly
the four non-key fields of that row in place — key fields and every other
row untouched, row count unchanged — and with no existing row it appends a
new row carrying the trade's fields. -/
theorem c7_upsert_overwrite_or_insert (store : List Trade) (t : Trade) :
    (∀ e, TradeRepository.get_by_id_and_version store t.trade_id t.version = some e →
      ∃ l1 l2, store = l1 ++ e :: l2 ∧
        TradeRepository.upsert store t = l1 ++ overwriteFields e t :: l2 ∧
        (overwriteFields e t).trade_id = e.trade_id ∧
        (overwriteFields e t).version = e.version ∧
        (overwriteFields e t).counterparty_id = t.counterparty_id ∧
        (overwriteFields e t).book_id = t.book_id ∧
        (overwriteFields e t).maturity_date = t.maturity_date ∧
        (overwriteFields e t).created_date = t.created_date ∧
        (TradeRepository.upsert store t).length = store.length) ∧
    (TradeRepository.get_by_id_and_version store t.trade_id t.version = none →
      TradeRepository.upsert store t = store ++ [t]) := by
  constructor
  · intro e he
    have hfind := he
    rw [TradeRepository.get_by_id_and_version, List.find?_eq_some] at hfind
    obtain ⟨hpe, l1, l2, hsplit, hl1⟩ := hfind
    have hup : TradeRepository.upsert store t = replaceFirst store t := by
      rw [TradeRepository.upsert, he]
    have hl1' : ∀ a ∈ l1, tradeKeyMatch t.trade_id t.version a = false := by
      intro a ha
      have := hl1 a ha
      simpa using this
    refine ⟨l1, l2, hsplit, ?_, rfl, rfl, rfl, rfl, rfl, rfl, ?_⟩
    · rw [hup, hsplit, replaceFirst_append_no_match t l1 _ hl1', replaceFirst,
        if_pos hpe]
    · rw [hup, hsplit, replaceFirst_append_no_match t l1 _ hl1', replaceFirst,
        if_pos hpe]
      simp
  · intro he
    rw [TradeRepository.upsert, he]

/-- Witness for C7: overwriting the single matching row of a two-row store,
and appending to a store with no matching row. -/
theorem c7_upsert_overwrite_or_insert_witness :
    (∃ l1 l2,
      [⟨"T1", 1, "CPold", "Bold", 5, 5⟩, ⟨"T2", 1, "CP2", "B2", 6, 6⟩] = l1 ++
        (⟨"T1", 1, "CPold", "Bold", 5, 5⟩ : Trade) :: l2 ∧
      TradeRepository.upsert
          [⟨"T1", 1, "CPold", "Bold", 5, 5⟩, ⟨"T2", 1, "CP2", "B2", 6, 6⟩]
          ⟨"T1", 1, "CPnew", "Bnew", 9, 9⟩ =
        l1 ++ overwriteFields ⟨"T1", 1, "CPold", "Bold", 5, 5⟩
          ⟨"T1", 1, "CPnew", "Bnew", 9, 9⟩ :: l2 ∧
      (overwriteFields ⟨"T1", 1, "CPold", "Bold", 5, 5⟩
        ⟨"T1", 1, "CPnew", "Bnew", 9, 9⟩).trade_id = "T1" ∧
      (overwriteFields ⟨"T1", 1, "CPold", "Bold", 5, 5⟩
        ⟨"T1", 1, "CPnew", "Bnew", 9, 9⟩).version = 1 ∧
      (overwriteFields ⟨"T1", 1, "CPold", "Bold", 5, 5⟩
        ⟨"T1", 1, "CPnew", "Bnew", 9, 9⟩).counterparty_id = "CPnew" ∧
      (overwriteFields ⟨"T1", 1, "CPold", "Bold", 5, 5⟩
        ⟨"T1", 1, "CPnew", "Bnew", 9, 9⟩).book_id = "Bnew" ∧
      (overwriteFields ⟨"T1", 1, "CPold", "Bold", 5, 5⟩
        ⟨"T1", 1, "CPnew", "Bnew", 9, 9⟩).maturity_date = 9 ∧
      (overwriteFields ⟨"T1", 1, "CPold", "Bold", 5, 5⟩
        ⟨"T1", 1, "CPnew", "Bnew", 9, 9⟩).created_date = 9 ∧
      (TradeRepository.upsert
          [⟨"T1", 1, "CPold", "Bold", 5, 5⟩, ⟨"T2", 1, "CP2", "B2", 6, 6⟩]
          ⟨"T1", 1, "CPnew", "Bnew", 9, 9⟩).length = 2) ∧
    TradeRepository.upsert [⟨"T2", 1, "CP2", "B2", 6, 6⟩]
        ⟨"T1", 1, "CPnew", "Bnew", 9, 9⟩ =
      [⟨"T2", 1, "CP2", "B2", 6, 6⟩, ⟨"T1", 1, "CPnew", "Bnew", 9, 9⟩] := by
  constructor
  · have h := (c7_upsert_overwrite_or_insert
      [⟨"T1", 1, "CPold", "Bold", 5, 5⟩, ⟨"T2", 1, "CP2", "B2", 6, 6⟩]
      ⟨"T1", 1, "CPnew", "Bnew", 9, 9⟩).1 ⟨"T1", 1, "CPold", "Bold", 5, 5⟩
      (by decide)
    obtain ⟨l1, l2, h1, h2, h3, h4, h5, h6, h7, h8, h9⟩ := h
    exact ⟨l1, l2, h1, h2, h3, h4, h5, h6, h7, h8, h9⟩
  · exact (c7_upsert_overwrite_or_insert [⟨"T2", 1, "CP2", "B2", 6, 6⟩]
      ⟨"T1", 1, "CPnew", "Bnew", 9, 9⟩).2 (by decide)

/-- C3: when the validation chain rejects a message carrying a request_id
(with a lifecycle-store client present), the consumer leaves the record
store identical to what it was, and the lifecycle record is set to FAILED
carrying the rejection's human-readable message. -/
theorem c3_rejection_failed_no_write (today : Date) (m : MessageValue)
    (st : ConsumerState) (exc : TradeValidationError) (rid : String)
    (hval : runValidation today st.trades (tradeCreateOfMessage m) = .error exc)
    (hrid : m.request_id = some rid) :
    (handle_message today true m st).trades = st.trades ∧
    (handle_message today true m st).requests =
      RequestRepository.update_status st.requests rid "FAILED"
        (some exc.message) ∧
    ∀ r ∈ (handle_message today true m st).requests,
      r.request_id = rid → r.status = "FAILED" ∧
        r.failure_reason = some exc.message := by
  refine ⟨?_, ?_, ?_⟩
  · simp [handle_message, hval, hrid]
  · simp [handle_message, hval, hrid]
  · intro r hr hr_id
    simp only [handle_message, hval, hrid, if_true,
      RequestRepository.update_status, List.mem_map] at hr
    obtain ⟨r0, _, heq⟩ := hr
    by_cases h : r0.request_id == rid
    · rw [if_pos h] at heq
      rw [← heq]
      exact ⟨rfl, rfl⟩
    · rw [if_neg h] at heq
      rw [← heq] at hr_id
      rw [hr_id] at h
      simp at h

/-- Witness for C3: a version-1 submission against a store holding version 2
of the same trade is rejected as LowerVersion; the store keeps only its
prior row, the lifecycle record ends FAILED with the rejection message. -/
theorem c3_rejection_failed_no_write_witness :
    (handle_message 5 true
        ⟨some "r1", "T2", 1, "CP", "B", 10, 0, "insert"⟩
        ⟨[⟨"T2", 2, "CP2", "B2", 10, 0⟩],
          [⟨"r1", "PENDING", "T2", 1, "CP", "B", 10, 0, none⟩]⟩).trades =
      [⟨"T2", 2, "CP2", "B2", 10, 0⟩] ∧
    (handle_message 5 true
        ⟨some "r1", "T2", 1, "CP", "B", 10, 0, "insert"⟩
        ⟨[⟨"T2", 2, "CP2", "B2", 10, 0⟩],
          [⟨"r1", "PENDING", "T2", 1, "CP", "B", 10, 0, none⟩]⟩).requests =
      RequestRepository.update_status
        [⟨"r1", "PENDING", "T2", 1, "CP", "B", 10, 0, none⟩] "r1" "FAILED"
        (some (TradeValidationError.LowerVersionError
          (lowerVersionMessage 2 ⟨"T2", 1, "CP", "B", 10, 0⟩)).message) := by
  have h := c3_rejection_failed_no_write 5
    ⟨some "r1", "T2", 1, "CP", "B", 10, 0, "insert"⟩
    ⟨[⟨"T2", 2, "CP2", "B2", 10, 0⟩],
      [⟨"r1", "PENDING", "T2", 1, "CP", "B", 10, 0, none⟩]⟩
    (.LowerVersionError (lowerVersionMessage 2 ⟨"T2", 1, "CP", "B", 10, 0⟩))
    "r1" rfl rfl
  exact ⟨h.1, h.2.1⟩

/-- The record-store effect of `handle_message`, as a pure function of the
processing date, the prior rows and the submission: the validation chain
runs and, on acceptance, the trade row is upserted. -/
def processTrades (today : Date) (trades : List Trade) (t : TradeCreate) :
    List Trade :=
  match runValidation today trades t with
  | .error _ => trades
  | .ok _ => TradeRepository.upsert trades (tradeOfCreate t)

/-- Fact: `handle_message` changes the record store exactly as
`processTrades` says, whatever the lifecycle-store situation. -/
theorem handle_message_trades (today : Date) (client : Bool)
    (m : MessageValue) (st : ConsumerState) :
    (handle_message today client m st).trades =
      processTrades today st.trades (tradeCreateOfMessage m) := by
  cases hv : runValidation today st.trades (tradeCreateOfMessage m) with
  | error e =>
    simp only [handle_message, processTrades, hv]
    cases client
    · rfl
    · cases m.request_id <;> rfl
  | ok a => simp [handle_message, processTrades, hv]

/-- C10: with no request_id on the message, or no lifecycle-store client,
`handle_message` performs no lifecycle-store write at all — on the
rejection path and on the success path alike — while the validation chain
still runs and an accepted trade is still upserted. -/
theorem c10_no_request_id_no_lifecycle_write (today : Date) (client : Bool)
    (m : MessageValue) (st : ConsumerState)
    (h : m.request_id = none ∨ client = false) :
    (handle_message today client m st).requests = st.requests ∧
    (handle_message today client m st).trades =
      processTrades today st.trades (tradeCreateOfMessage m) := by
  refine ⟨?_, handle_message_trades today client m st⟩
  cases hv : runValidation today st.trades (tradeCreateOfMessage m) with
  | error e =>
    rcases h with h | h
    · simp only [handle_message, hv, h]
      cases client <;> rfl
    · simp only [handle_message, hv, h]
      rfl
  | ok a =>
    rcases h with h | h
    · simp only [handle_message, hv, h]
      cases client <;> rfl
    · simp only [handle_message, hv, h]
      rfl

/-- Witness for C10: an accepted message with no request_id is upserted into
the record store while the lifecycle store stays untouched. -/
theorem c10_no_request_id_no_lifecycle_write_witness :
    (handle_message 5 true ⟨none, "T1", 1, "CP", "B", 10, 0, "insert"⟩
        ⟨[], [⟨"r1", "PENDING", "T1", 1, "CP", "B", 10, 0, none⟩]⟩).requests =
      [⟨"r1", "PENDING", "T1", 1, "CP", "B", 10, 0, none⟩] ∧
    (handle_message 5 true ⟨none, "T1", 1, "CP", "B", 10, 0, "insert"⟩
        ⟨[], [⟨"r1", "PENDING", "T1", 1, "CP", "B", 10, 0, none⟩]⟩).trades =
      processTrades 5 [] ⟨"T1", 1, "CP", "B", 10, 0⟩ :=
  c10_no_request_id_no_lifecycle_write 5 true
    ⟨none, "T1", 1, "CP", "B", 10, 0, "insert"⟩
    ⟨[], [⟨"r1", "PENDING", "T1", 1, "CP", "B", 10, 0, none⟩]⟩ (Or.inl rfl)

/-- Overwriting a row with its own field values is the identity. -/
theorem overwriteFields_self (t : Trade) : overwriteFields t t = t := rfl

/-- Overwriting non-key fields never changes whether a row matches a key. -/
theorem tradeKeyMatch_overwriteFields (tid : String) (v : Nat) (r t : Trade) :
    tradeKeyMatch tid v (overwriteFields r t) = tradeKeyMatch tid v r := rfl

/-- Every row matches its own key. -/
theorem tradeKeyMatch_self (t : Trade) :
    tradeKeyMatch t.trade_id t.version t = true := by
  simp [tradeKeyMatch]

/-- Overwriting the same row twice with the same values is the same as once. -/
theorem replaceFirst_idem (s : List Trade) (t : Trade) :
    replaceFirst (replaceFirst s t) t = replaceFirst s t := by
  induction s with
  | nil => rfl
  | cons r rs ih =>
    rw [replaceFirst]
    by_cases h : tradeKeyMatch t.trade_id t.version r
    · rw [if_pos h, replaceFirst, tradeKeyMatch_overwriteFields, if_pos h]
      rfl
    · rw [if_neg h, replaceFirst, if_neg h, ih]

/-- When a row with the key exists, overwriting in place keeps a
(now freshly overwritten) row with the key findable. -/
theorem find?_replaceFirst_of_some (s : List Trade) (t : Trade) (e : Trade)
    (h : s.find? (tradeKeyMatch t.trade_id t.version) = some e) :
    (replaceFirst s t).find? (tradeKeyMatch t.trade_id t.version) =
      some (overwriteFields e t) := by
  induction s with
  | nil => simp at h
  | cons r rs ih =>
    rw [List.find?_cons] at h
    by_cases hr : tradeKeyMatch t.trade_id t.version r
    · rw [hr] at h
      injection h with h
      subst h
      rw [replaceFirst, if_pos hr, List.find?_cons, tradeKeyMatch_overwriteFields,
        hr]
    · simp only [Bool.not_eq_true] at hr
      rw [hr] at h
      rw [replaceFirst]
      simp only [hr, Bool.false_eq_true, if_false]
      rw [List.find?_cons, hr]
      exact ih h

/-- Upserting the same trade twice gives the same store as upserting once. -/
theorem upsert_idem (s : List Trade) (t : Trade) :
    TradeRepository.upsert (TradeRepository.upsert s t) t =
      TradeRepository.upsert s t := by
  cases hf : TradeRepository.get_by_id_and_version s t.trade_id t.version with
  | some e =>
    have h1 : TradeRepository.upsert s t = replaceFirst s t := by
      rw [TradeRepository.upsert, hf]
    rw [h1, TradeRepository.upsert, TradeRepository.get_by_id_and_version,
      find?_replaceFirst_of_some s t e hf]
    exact replaceFirst_idem s t
  | none =>
    have h1 : TradeRepository.upsert s t = s ++ [t] := by
      rw [TradeRepository.upsert, hf]
    have hnone : ∀ a ∈ s, tradeKeyMatch t.trade_id t.version a = false := by
      intro a ha
      have := List.find?_eq_none.mp hf a ha
      simpa using this
    have h2 : (s ++ [t]).find? (tradeKeyMatch t.trade_id t.version) = some t := by
      rw [List.find?_append,
        show List.find? (tradeKeyMatch t.trade_id t.version) s = none from hf,
        Option.none_or, List.find?_cons, tradeKeyMatch_self]
    rw [h1, TradeRepository.upsert, TradeRepository.get_by_id_and_version, h2,
      replaceFirst_append_no_match t s [t] hnone, replaceFirst,
      tradeKeyMatch_self, if_pos rfl, overwriteFields_self]

/-- Embeds `max?` of a list extended on the right by one element. -/
theorem max?_append_singleton (xs : List Nat) (v : Nat) :
    (xs ++ [v]).max? =
      some (match xs.max? with | none => v | some m => max m v) := by
  cases xs with
  | nil => rfl
  | cons a as =>
    show some (List.foldl max a (as ++ [v])) =
      some (max (List.foldl max a as) v)
    rw [List.foldl_append]
    rfl

/-- Overwriting non-key fields in place changes no row's trade_id or
version, so the version column seen through any trade_id filter is
unchanged. -/
theorem replaceFirst_filter_map_version (s : List Trade) (t : Trade)
    (tid : String) :
    ((replaceFirst s t).filter (fun r => r.trade_id == tid)).map
        (fun r => r.version) =
      (s.filter (fun r => r.trade_id == tid)).map (fun r => r.version) := by
  induction s with
  | nil => rfl
  | cons r rs ih =>
    rw [replaceFirst]
    by_cases h : tradeKeyMatch t.trade_id t.version r
    · rw [if_pos h, List.filter_cons, List.filter_cons,
        show ((overwriteFields r t).trade_id == tid) = (r.trade_id == tid)
          from rfl]
      by_cases h2 : (r.trade_id == tid) = true
      · rw [if_pos h2, if_pos h2, List.map_cons, List.map_cons]
        rfl
      · rw [if_neg h2, if_neg h2]
    · rw [if_neg h, List.filter_cons, List.filter_cons]
      by_cases h2 : (r.trade_id == tid) = true
      · rw [if_pos h2, if_pos h2, List.map_cons, List.map_cons, ih]
      · rw [if_neg h2, if_neg h2, ih]

/-- The max stored version is unchanged by an in-place overwrite. -/
theorem get_max_version_replaceFirst (s : List Trade) (t : Trade)
    (tid : String) :
    TradeRepository.get_max_version (replaceFirst s t) tid =
      TradeRepository.get_max_version s tid := by
  rw [TradeRepository.get_max_version, TradeRepository.get_max_version,
    replaceFirst_filter_map_version]

/-- The max stored version after appending a row for the same trade_id. -/
theorem get_max_version_append_self (s : List Trade) (t : Trade) :
    TradeRepository.get_max_version (s ++ [t]) t.trade_id =
      some (match TradeRepository.get_max_version s t.trade_id with
            | none => t.version
            | some m => max m t.version) := by
  rw [TradeRepository.get_max_version, TradeRepository.get_max_version,
    List.filter_append, List.map_append]
  rw [show List.filter (fun r => r.trade_id == t.trade_id) [t] = [t] by simp]
  rw [show List.map (fun r : Trade => r.version) [t] = [t.version] from rfl]
  rw [max?_append_singleton]

/-- An accepted submission is still accepted by the validation chain after
its own upsert: its version then equals the stored maximum (or, on the
overwrite branch, the maximum is unchanged), so the strict lower-version
test cannot fire. -/
theorem runValidation_upsert_ok (today : Date) (s : List Trade)
    (tc : TradeCreate) (a : TradeAction)
    (hv : runValidation today s tc = .ok a) :
    ∃ b, runValidation today
        (TradeRepository.upsert s (tradeOfCreate tc)) tc = .ok b := by
  have hmat : ¬ tc.maturity_date < today := by
    intro hlt
    rw [runValidation, MaturityDateValidator.validate, if_pos hlt] at hv
    exact absurd hv (by simp)
  have hmat' : MaturityDateValidator.validate today tc = .ok () := by
    rw [MaturityDateValidator.validate, if_neg hmat]
  have hver : VersionValidator.validate
      (TradeRepository.get_max_version s tc.trade_id) tc = .ok a := by
    rw [runValidation, hmat'] at hv
    exact hv
  simp only [runValidation, hmat']
  set t := tradeOfCreate tc with ht
  have htid : t.trade_id = tc.trade_id := rfl
  have htv : t.version = tc.version := rfl
  cases hf : TradeRepository.get_by_id_and_version s t.trade_id t.version with
  | some e =>
    have hup : TradeRepository.upsert s t = replaceFirst s t := by
      rw [TradeRepository.upsert, hf]
    rw [hup, get_max_version_replaceFirst]
    exact ⟨a, hver⟩
  | none =>
    have hup : TradeRepository.upsert s t = s ++ [t] := by
      rw [TradeRepository.upsert, hf]
    rw [hup]
    have happ := get_max_version_append_self s t
    rw [htid] at happ
    rw [happ]
    cases hm : TradeRepository.get_max_version s tc.trade_id with
    | none =>
      refine ⟨.UPSERT, ?_⟩
      show VersionValidator.validate (some t.version) tc = .ok .UPSERT
      simp [VersionValidator.validate, htv]
    | some mv =>
      rw [hm] at hver
      have hnl : ¬ tc.version < mv := by
        intro hlt
        simp [VersionValidator.validate, hlt] at hver
      have hmax : max mv t.version = tc.version := by
        rw [htv]
        omega
      refine ⟨.UPSERT, ?_⟩
      show VersionValidator.validate (some (max mv t.version)) tc = .ok .UPSERT
      rw [hmax]
      simp [VersionValidator.validate]

/-- Reprocessing a message on the same date leaves the record store exactly
where the first processing put it. -/
theorem processTrades_idem (today : Date) (s : List Trade) (tc : TradeCreate) :
    processTrades today (processTrades today s tc) tc =
      processTrades today s tc := by
  cases hv : runValidation today s tc with
  | error e => simp [processTrades, hv]
  | ok a =>
    obtain ⟨b, hb⟩ := runValidation_upsert_ok today s tc a hv
    simp only [processTrades, hv, hb]
    exact upsert_idem s (tradeOfCreate tc)

/-- C4: processing the same message twice on the same current date yields
the same final record store as processing it once — the persisted rows are
a function of the message content, not of the processing count. -/
theorem c4_reprocessing_idempotent (today : Date) (client : Bool)
    (m : MessageValue) (st : ConsumerState) :
    (handle_message today client m (handle_message today client m st)).trades =
      (handle_message today client m st).trades := by
  rw [handle_message_trades today client m (handle_message today client m st),
    handle_message_trades today client m st, processTrades_idem]

/-- Setting the same status (and the same optional reason) twice is the
same as setting it once: the second `update_item` writes the values the
records already hold. -/
theorem update_status_idem (reqs : List RequestRecord) (rid status : String)
    (reason : Option String) :
    RequestRepository.update_status
        (RequestRepository.update_status reqs rid status reason) rid status
        reason =
      RequestRepository.update_status reqs rid status reason := by
  unfold RequestRepository.update_status
  rw [List.map_map]
  congr 1
  funext r
  by_cases h : (r.request_id == rid) = true
  · simp only [Function.comp_apply, if_pos h]
    cases reason <;> rfl
  · simp only [Function.comp_apply, if_neg h]

/-- Every record after an `update_status` either carries the written status
or is an untouched record of the prior store. -/
theorem update_status_mem (reqs : List RequestRecord) (rid status : String)
    (reason : Option String) (r : RequestRecord)
    (hr : r ∈ RequestRepository.update_status reqs rid status reason) :
    r.status = status ∨ r ∈ reqs := by
  rw [RequestRepository.update_status] at hr
  obtain ⟨r0, hr0, heq⟩ := List.mem_map.mp hr
  by_cases h : (r0.request_id == rid) = true
  · rw [if_pos h] at heq
    left
    rw [← heq]
  · rw [if_neg h] at heq
    right
    rw [← heq]
    exact hr0

/-- Reprocessing the same message on the same processing date is a no-op on
the whole consumer-visible state: the second run reaches the same verdict
and rewrites the same trade fields and the same lifecycle status. -/
theorem handle_message_idem (today : Date) (client : Bool) (m : MessageValue)
    (st : ConsumerState) :
    handle_message today client m (handle_message today client m st) =
      handle_message today client m st := by
  cases hv : runValidation today st.trades (tradeCreateOfMessage m) with
  | error e =>
    cases client with
    | false => simp [handle_message, hv]
    | true =>
      cases hrid : m.request_id with
      | none => simp [handle_message, hv, hrid]
      | some rid => simp [handle_message, hv, hrid, update_status_idem]
  | ok a =>
    obtain ⟨b, hb⟩ :=
      runValidation_upsert_ok today st.trades (tradeCreateOfMessage m) a hv
    cases client with
    | false => simp [handle_message, hv, hb, upsert_idem]
    | true =>
      cases hrid : m.request_id with
      | none => simp [handle_message, hv, hrid, hb, upsert_idem]
      | some rid =>
        simp [handle_message, hv, hrid, hb, upsert_idem, update_status_idem]

/-- Counterexample to C8: `update_status` writes unconditionally, so an
at-least-once redelivery processed on a later date revisits a terminal
record.  A trade with maturity 10 is accepted on processing date 10 and the
lifecycle record becomes SUCCESS; reprocessing the very same message on
date 11 finds the maturity expired and overwrites the terminal SUCCESS with
FAILED. -/
theorem c8_counterexample_success_to_failed :
    getStatus (handle_message 10 true
        ⟨some "r1", "T1", 1, "CP", "B", 10, 0, "insert"⟩
        ⟨[], [⟨"r1", "PENDING", "T1", 1, "CP", "B", 10, 0, none⟩]⟩).requests
      "r1" = some "SUCCESS" ∧
    getStatus (handle_message 11 true
        ⟨some "r1", "T1", 1, "CP", "B", 10, 0, "insert"⟩
        (handle_message 10 true
          ⟨some "r1", "T1", 1, "CP", "B", 10, 0, "insert"⟩
          ⟨[], [⟨"r1", "PENDING", "T1", 1, "CP", "B", 10, 0, none⟩]⟩)).requests
      "r1" = some "FAILED" :=
  ⟨rfl, rfl⟩

/-- C8 (amended): the consumer only ever writes the terminal statuses
SUCCESS and FAILED — every record after `handle_message` either carries one
of those or is an untouched record of the prior store — and reprocessing a
message on the same processing date never changes any record again, so a
terminal status is stable as long as the processing date does not move past
the trade's maturity between deliveries.  (As stated, C8 fails: a
redelivery on a later date overwrites SUCCESS with FAILED, because
`update_status` does not guard on the current status.) -/
theorem c8_amended_terminal_stable (today : Date) (client : Bool)
    (m : MessageValue) (st : ConsumerState) :
    (∀ r ∈ (handle_message today client m st).requests,
      r.status = "SUCCESS" ∨ r.status = "FAILED" ∨ r ∈ st.requests) ∧
    handle_message today client m (handle_message today client m st) =
      handle_message today client m st := by
  refine ⟨?_, handle_message_idem today client m st⟩
  intro r hr
  cases hv : runValidation today st.trades (tradeCreateOfMessage m) with
  | error e =>
    cases client with
    | false =>
      right; right
      have hreq : (handle_message today false m st).requests = st.requests := by
        simp [handle_message, hv]
      rwa [hreq] at hr
    | true =>
      cases hrid : m.request_id with
      | none =>
        right; right
        have hreq : (handle_message today true m st).requests = st.requests := by
          simp [handle_message, hv, hrid]
        rwa [hreq] at hr
      | some rid =>
        have hreq : (handle_message today true m st).requests =
            RequestRepository.update_status st.requests rid "FAILED"
              (some e.message) := by
          simp [handle_message, hv, hrid]
        rw [hreq] at hr
        rcases update_status_mem _ _ _ _ _ hr with h | h
        · right; left; exact h
        · right; right; exact h
  | ok a =>
    cases client with
    | false =>
      right; right
      have hreq : (handle_message today false m st).requests = st.requests := by
        simp [handle_message, hv]
      rwa [hreq] at hr
    | true =>
      cases hrid : m.request_id with
      | none =>
        right; right
        have hreq : (handle_message today true m st).requests = st.requests := by
          simp [handle_message, hv, hrid]
        rwa [hreq] at hr
      | some rid =>
        have hreq : (handle_message today true m st).requests =
            RequestRepository.update_status st.requests rid "SUCCESS" none := by
          simp [handle_message, hv, hrid]
        rw [hreq] at hr
        rcases update_status_mem _ _ _ _ _ hr with h | h
        · left; exact h
        · right; right; exact h

/-- Witness for the amended C8 at a concrete accepted message: the updated
record carries a terminal status, and same-date reprocessing is a no-op. -/
theorem c8_amended_terminal_stable_witness :
    (⟨"r2", "SUCCESS", "T9", 1, "CP", "B", 20, 0, none⟩ : RequestRecord).status
        = "SUCCESS" ∨
      (⟨"r2", "SUCCESS", "T9", 1, "CP", "B", 20, 0, none⟩ : RequestRecord).status
        = "FAILED" ∨
      (⟨"r2", "SUCCESS", "T9", 1, "CP", "B", 20, 0, none⟩ : RequestRecord) ∈
        [⟨"r2", "PENDING", "T9", 1, "CP", "B", 20, 0, none⟩] :=
  (c8_amended_terminal_stable 10 true
    ⟨some "r2", "T9", 1, "CP", "B", 20, 0, "insert"⟩
    ⟨[], [⟨"r2", "PENDING", "T9", 1, "CP", "B", 20, 0, none⟩]⟩).1
    ⟨"r2", "SUCCESS", "T9", 1, "CP", "B", 20, 0, none⟩ (by decide)
